import Mathlib

/-!
Verification development for the gateway forwarder core.

The Rust source stores signal quantities (frequencies, times on air,
regulatory limits) in `f32`/`f64`.  The embedding models those values as
exact rationals (`ℚ`); all quantities exercised by the theorems below are
small integers or short decimal fractions for which the float computations
of the source are exact (or whose comparisons are unaffected by rounding),
so the rational idealisation agrees with the source on every input used.
Machine integers (`u32`, `i64`, `usize`) are modelled as `ℕ`/`ℤ`, with an
explicit reduction modulo `2^32` at the one place the source performs a
`u32` subtraction that can wrap.
-/

namespace Gateway

/-! ## lora_throttle.rs: data model -/

/-- Source `MAX_TIME_ON_AIR: f32 = 400.0` (milliseconds). -/
def MAX_TIME_ON_AIR : ℚ := 400

/-- Source `struct SentPacket { frequency: f32, sent_at: i64, time_on_air: f32 }`. -/
structure SentPacket where
  frequency : ℚ
  sent_at : ℤ
  time_on_air : ℚ
deriving DecidableEq, Repr

/-- Source `enum LoraRegulatoryModel { Dwell { limit, period }, Duty { limit, period } }`.
The `limit` field is `f32`, the `period` field is `u32`. -/
inductive LoraRegulatoryModel where
  | dwell (limit : ℚ) (period : ℕ)
  | duty (limit : ℚ) (period : ℕ)
deriving DecidableEq, Repr

/-- Source `LoraRegulatoryModel::period`. -/
def LoraRegulatoryModel.period : LoraRegulatoryModel → ℕ
  | .dwell _ period => period
  | .duty _ period => period

/-- Frequency-filter test of source `dwell_time` scenario 2: the packet is
skipped when a frequency filter is requested and the packet is on a
different frequency. -/
def skip_frequency (frequency : Option ℚ) (p : SentPacket) : Bool :=
  match frequency with
  | some f => decide (p.frequency ≠ f)
  | none => false

/-- Source `dwell_time(sent_packets, cutoff_time, frequency)`: total time on
air of the tracked packets no older than `cutoff_time`, optionally
restricted to one frequency.  The source iterates the list accumulating
into a running `f32`; the recursion below adds the same per-packet
contributions. -/
def dwell_time : List SentPacket → ℚ → Option ℚ → ℚ
  | [], _, _ => 0
  | p :: rest, cutoff_time, frequency =>
    let rest_dwell := dwell_time rest cutoff_time frequency
    -- Scenario 1: entire packet sent before cutoff_time
    if (p.sent_at : ℚ) + p.time_on_air < cutoff_time then rest_dwell
    -- Scenario 2: packet sent on non-relevant frequency
    else if skip_frequency frequency p then rest_dwell
    -- Scenario 3: packet started before cutoff_time but finished after it
    else if (p.sent_at : ℚ) ≤ cutoff_time then
      (p.time_on_air - (cutoff_time - (p.sent_at : ℚ))) + rest_dwell
    -- Scenario 4: 100 % of packet transmission after cutoff_time
    else p.time_on_air + rest_dwell

/-- Source `LoraRegulatoryModel::can_send(sent_packets, at_time, frequency, time_on_air)`. -/
def LoraRegulatoryModel.can_send (model : LoraRegulatoryModel)
    (sent_packets : List SentPacket) (at_time : ℤ) (frequency : ℚ)
    (time_on_air : ℚ) : Bool :=
  match model with
  | .dwell limit period =>
    let cutoff_time : ℚ := ((at_time - (period : ℤ) : ℤ) : ℚ) + time_on_air
    let projected_dwell_time :=
      dwell_time sent_packets cutoff_time (some frequency) + time_on_air
    decide (projected_dwell_time ≤ limit)
  | .duty limit period =>
    let cutoff_time : ℚ := ((at_time - (period : ℤ) : ℤ) : ℚ)
    let current_dwell := dwell_time sent_packets cutoff_time none
    decide ((current_dwell + time_on_air) / (period : ℚ) < limit)

/-- Source `struct LoraThrottle { model: Option<LoraRegulatoryModel>, sent_packets: Vec<SentPacket> }`. -/
structure LoraThrottle where
  model : Option LoraRegulatoryModel
  sent_packets : List SentPacket
deriving DecidableEq, Repr

/-- Source `impl From<LoraRegulatoryModel> for LoraThrottle`. -/
def LoraThrottle.fromModel (v : LoraRegulatoryModel) : LoraThrottle :=
  { sent_packets := [], model := some v }

/-- Comparison used by the source sort: `SentPacket` carries `Ord` comparing
only `sent_at`. -/
def sentPacketLe (a b : SentPacket) : Bool :=
  decide (a.sent_at ≤ b.sent_at)

/-- Source `LoraThrottle::track_sent(sent_at, frequency, time_on_air)`:
push the new packet, re-sort when it precedes the previous last entry
(`sort_unstable` sorts by `sent_at`, the derived order), then retain only
entries newer than `last.sent_at - period`. -/
def LoraThrottle.track_sent (t : LoraThrottle) (sent_at : ℤ)
    (frequency : ℚ) (time_on_air : ℚ) : LoraThrottle :=
  match t.model with
  | none => t
  | some model =>
    let sent_packet : SentPacket := ⟨frequency, sent_at, time_on_air⟩
    let sort : Bool :=
      match t.sent_packets.getLast? with
      | some last_packet => decide (sent_packet.sent_at < last_packet.sent_at)
      | none => false
    let pushed := t.sent_packets ++ [sent_packet]
    let sorted := if sort then pushed.mergeSort sentPacketLe else pushed
    match sorted.getLast? with
    | some last_packet =>
      let cutoff_time := last_packet.sent_at - (model.period : ℤ)
      { t with sent_packets := sorted.filter (fun p => decide (cutoff_time < p.sent_at)) }
    | none => { t with sent_packets := sorted }

/-- Source `LoraThrottle::can_send(at_time, frequency, time_on_air)`. -/
def LoraThrottle.can_send (t : LoraThrottle) (at_time : ℤ)
    (frequency : ℚ) (time_on_air : ℚ) : Bool :=
  match t.model with
  | some model =>
    if time_on_air > MAX_TIME_ON_AIR then false
    else model.can_send t.sent_packets at_time frequency time_on_air
  | none => false

/-! ## lora_throttle.rs: time on air -/

/-- Source `symbol_duration(bandwidth, spreading_factor) = 2^SF / bandwidth` (seconds). -/
def symbol_duration (bandwidth : ℚ) (spreading_factor : ℕ) : ℚ :=
  ((2 ^ spreading_factor : ℕ) : ℚ) / bandwidth

/-- Reduction modulo `2^32`, the value of a wrapping `u32` computation. -/
def wrap32 (x : ℤ) : ℕ :=
  (x % (2 ^ 32 : ℤ)).toNat

/-- Source `payload_symbols(spreading_factor, code_rate, explicit_header, payload_len, low_datarate_optimized)`.
The numerator `8*len - 4*SF + 28 + 16 - 20*(1 - eh)` is computed by the
source in `u32`, so when it is mathematically negative the release-build
value wraps modulo `2^32` (a debug build panics on the underflow); `wrap32`
makes that explicit.  The subsequent `max(_, 0)` is over `u32` and never
clamps.  The `f32` division and `ceil` are modelled exactly over `ℚ`; the
`as u32` cast of the nonnegative ceiling is `Int.toNat`. -/
def payload_symbols (spreading_factor code_rate : ℕ) (explicit_header : Bool)
    (payload_len : ℕ) (low_datarate_optimized : Bool) : ℕ :=
  let eh : ℤ := if explicit_header then 1 else 0
  let ldo : ℕ := if low_datarate_optimized then 1 else 0
  let numerator : ℕ :=
    wrap32 (8 * (payload_len : ℤ) - 4 * (spreading_factor : ℤ) + 28 + 16 - 20 * (1 - eh))
  let denominator : ℕ := 4 * (spreading_factor - 2 * ldo)
  8 + max ((⌈(numerator : ℚ) / (denominator : ℚ)⌉).toNat * code_rate) 0

/-- Source `time_on_air(bandwidth, spreading_factor, code_rate, preamble_symbols, explicit_header, payload_len)` (seconds). -/
def time_on_air (bandwidth : ℚ) (spreading_factor code_rate preamble_symbols : ℕ)
    (explicit_header : Bool) (payload_len : ℕ) : ℚ :=
  let sd := symbol_duration bandwidth spreading_factor
  let ps := payload_symbols spreading_factor code_rate explicit_header payload_len
    (decide (bandwidth ≤ 125000) && decide (11 ≤ spreading_factor))
  sd * (17 / 4 + (preamble_symbols : ℚ) + (ps : ℚ))

/-- Source test helper `ms(seconds)`: seconds truncated to whole milliseconds. -/
def ms (seconds : ℚ) : ℕ :=
  (⌊seconds * 1000⌋).toNat

/-! ## Spec-side definitions (for the refinement claims)

These definitions follow the wording of the specification, to be compared
with the source-derived functions above. -/

/-- Per-packet dwell contribution as the spec words it: packets on another
frequency contribute 0; a packet wholly before the cutoff contributes 0; a
packet straddling the cutoff (`sent_at ≤ cutoff`) contributes
`toa − (cutoff − sent_at)`; a packet starting after the cutoff contributes
its full time on air. -/
def spec_dwell_contribution (cutoff : ℚ) (frequency : Option ℚ) (p : SentPacket) : ℚ :=
  if skip_frequency frequency p then 0
  else if (p.sent_at : ℚ) + p.time_on_air < cutoff then 0
  else if (p.sent_at : ℚ) ≤ cutoff then p.time_on_air - (cutoff - (p.sent_at : ℚ))
  else p.time_on_air

/-- Accumulated dwell of a packet history per the spec's accumulation rules. -/
def spec_dwell (pkts : List SentPacket) (cutoff : ℚ) (frequency : Option ℚ) : ℚ :=
  (pkts.map (spec_dwell_contribution cutoff frequency)).sum

/-- The payload-symbol count as the spec's formula reads, with the `max`
taken over the integers so that a negative numerator's contribution is
clamped to 0 (the claimed behaviour). -/
def spec_payload_symbols (spreading_factor code_rate : ℕ) (explicit_header : Bool)
    (payload_len : ℕ) (low_datarate_optimized : Bool) : ℤ :=
  let eh : ℤ := if explicit_header then 1 else 0
  let ldo : ℤ := if low_datarate_optimized then 1 else 0
  let numerator : ℤ :=
    8 * (payload_len : ℤ) - 4 * (spreading_factor : ℤ) + 28 + 16 - 20 * (1 - eh)
  let denominator : ℤ := 4 * ((spreading_factor : ℤ) - 2 * ldo)
  8 + max (⌈(numerator : ℚ) / (denominator : ℚ)⌉ * (code_rate : ℤ)) 0

/-! ## gateway.rs: signed-beacon queue -/

/-- Model of `semtech_udp::push_data::RxPkV3` restricted to the field the
gateway reads: the 32-bit packet-id `key` used to match a later signature.
The V3 record carries no slot for signature bytes; a signature can only be
attached to the derived `PacketUp` via `set_secure_sig`. -/
structure RxPkV3 where
  key : ℕ
deriving DecidableEq, Repr

/-- Source `Gateway::queue_signed_poc_packet`: when the queue's length
exceeds 5 the oldest entry (index 0) is removed, then the new packet is
pushed. -/
def queue_signed_poc_packet (queue : List RxPkV3) (packet : RxPkV3) : List RxPkV3 :=
  let queue := if queue.length > 5 then queue.eraseIdx 0 else queue
  queue ++ [packet]

/-- Source `Gateway::handle_pkt_sig`: find the position of the first queued
beacon whose `key` equals the signature's key and remove it.  The removed
beacon is bound to `original_pkt` and then dropped; the pair returned here
makes that binding explicit (first component: the queue after the call,
second: the removed beacon, which the source discards unused). -/
def handle_pkt_sig (queue : List RxPkV3) (sig_key : ℕ) : List RxPkV3 × Option RxPkV3 :=
  match queue.findIdx? (fun pkt => pkt.key == sig_key) with
  | some idx => (queue.eraseIdx idx, queue[idx]?)
  | none => (queue, none)

/-! ## dbusruntime.rs: datarate translation tables -/

/-- Model of `semtech_udp::SpreadingFactor` (the variants enumerated by the
exhaustive matches in `st_to_nl::convert_sf` / `nl_to_st::convert_sf`). -/
inductive StSpreadingFactor where
  | sf5 | sf6 | sf7 | sf8 | sf9 | sf10 | sf11 | sf12
deriving DecidableEq, Repr, Fintype

/-- Model of `loragw_hw::lib::SpreadingFactor`. -/
inductive NlSpreadingFactor where
  | sf5 | sf6 | sf7 | sf8 | sf9 | sf10 | sf11 | sf12
deriving DecidableEq, Repr, Fintype

/-- Model of `semtech_udp::Bandwidth`. -/
inductive StBandwidth where
  | bw125 | bw250 | bw500
deriving DecidableEq, Repr, Fintype

/-- Model of `loragw_hw::lib::Bandwidth`. -/
inductive NlBandwidth where
  | bw125 | bw250 | bw500
deriving DecidableEq, Repr, Fintype

/-- Model of `semtech_udp::CodingRate`. -/
inductive StCodingRate where
  | cr4_5 | cr4_6 | cr4_7 | cr4_8 | off
deriving DecidableEq, Repr, Fintype

/-- Model of `loragw_hw::lib::CodingRate`. -/
inductive NlCodingRate where
  | cr4_5 | cr4_6 | cr4_7 | cr4_8 | off
deriving DecidableEq, Repr, Fintype

/-- Model of `semtech_udp::DataRate` (spreading factor plus bandwidth). -/
structure StDataRate where
  sf : StSpreadingFactor
  bw : StBandwidth
deriving DecidableEq, Repr, Fintype

/-- Model of `loragw_hw::lib::Datarate` (a pair of spreading factor and bandwidth). -/
structure NlDatarate where
  sf : NlSpreadingFactor
  bw : NlBandwidth
deriving DecidableEq, Repr, Fintype

namespace nl_to_st

/-- Source `nl_to_st::convert_sf`. -/
def convert_sf : NlSpreadingFactor → StSpreadingFactor
  | .sf5 => .sf5
  | .sf6 => .sf6
  | .sf7 => .sf7
  | .sf8 => .sf8
  | .sf9 => .sf9
  | .sf10 => .sf10
  | .sf11 => .sf11
  | .sf12 => .sf12

/-- Source `nl_to_st::convert_bandwidth`. -/
def convert_bandwidth : NlBandwidth → StBandwidth
  | .bw125 => .bw125
  | .bw250 => .bw250
  | .bw500 => .bw500

/-- Source `nl_to_st::convert_coding_rate`. -/
def convert_coding_rate : NlCodingRate → StCodingRate
  | .cr4_5 => .cr4_5
  | .cr4_6 => .cr4_6
  | .cr4_7 => .cr4_7
  | .cr4_8 => .cr4_8
  | .off => .off

/-- Source `nl_to_st::convert_datarate`. -/
def convert_datarate (datarate : NlDatarate) : StDataRate :=
  ⟨convert_sf datarate.sf, convert_bandwidth datarate.bw⟩

end nl_to_st

namespace st_to_nl

/-- Source `st_to_nl::convert_sf`. -/
def convert_sf : StSpreadingFactor → NlSpreadingFactor
  | .sf5 => .sf5
  | .sf6 => .sf6
  | .sf7 => .sf7
  | .sf8 => .sf8
  | .sf9 => .sf9
  | .sf10 => .sf10
  | .sf11 => .sf11
  | .sf12 => .sf12

/-- Source `st_to_nl::convert_bandwidth`. -/
def convert_bandwidth : StBandwidth → NlBandwidth
  | .bw125 => .bw125
  | .bw250 => .bw250
  | .bw500 => .bw500

/-- Source `st_to_nl::convert_coderate`. -/
def convert_coderate : StCodingRate → NlCodingRate
  | .cr4_5 => .cr4_5
  | .cr4_6 => .cr4_6
  | .cr4_7 => .cr4_7
  | .cr4_8 => .cr4_8
  | .off => .off

/-- Source `st_to_nl::convert_datarate`. -/
def convert_datarate (datr : StDataRate) : NlDatarate :=
  ⟨convert_sf datr.sf, convert_bandwidth datr.bw⟩

end st_to_nl

/-! ## packet.rs: downlink conversion -/

/-- Decode-error kinds raised by `packet.rs` (`crate::error::DecodeError`
constructors used on the downlink path). -/
inductive DecodeError where
  | invalidCrc
  | noRx1Window
  | invalidDataRate
  | notBeacon
deriving DecidableEq, Repr

/-- Model of `helium_proto::DataRate` with every variant that
`datarate::from_proto` matches on. -/
inductive ProtoRate where
  | sf12bw125 | sf11bw125 | sf10bw125 | sf9bw125 | sf8bw125 | sf7bw125
  | sf12bw250 | sf11bw250 | sf10bw250 | sf9bw250 | sf8bw250 | sf7bw250
  | sf12bw500 | sf11bw500 | sf10bw500 | sf9bw500 | sf8bw500 | sf7bw500
  | lrfhss2bw137 | lrfhss1bw336 | lrfhss1bw137 | lrfhss2bw336
  | lrfhss1bw1523 | lrfhss2bw1523 | fsk50
deriving DecidableEq, Repr

/-- Source `datarate::from_proto`: translate an upstream protocol datarate
into a Semtech one; LR-FHSS and FSK rates are unsupported and yield a
decode error. -/
def datarate.from_proto : ProtoRate → Except DecodeError StDataRate
  | .sf12bw125 => .ok ⟨.sf12, .bw125⟩
  | .sf11bw125 => .ok ⟨.sf11, .bw125⟩
  | .sf10bw125 => .ok ⟨.sf10, .bw125⟩
  | .sf9bw125 => .ok ⟨.sf9, .bw125⟩
  | .sf8bw125 => .ok ⟨.sf8, .bw125⟩
  | .sf7bw125 => .ok ⟨.sf7, .bw125⟩
  | .sf12bw250 => .ok ⟨.sf12, .bw250⟩
  | .sf11bw250 => .ok ⟨.sf11, .bw250⟩
  | .sf10bw250 => .ok ⟨.sf10, .bw250⟩
  | .sf9bw250 => .ok ⟨.sf9, .bw250⟩
  | .sf8bw250 => .ok ⟨.sf8, .bw250⟩
  | .sf7bw250 => .ok ⟨.sf7, .bw250⟩
  | .sf12bw500 => .ok ⟨.sf12, .bw500⟩
  | .sf11bw500 => .ok ⟨.sf11, .bw500⟩
  | .sf10bw500 => .ok ⟨.sf10, .bw500⟩
  | .sf9bw500 => .ok ⟨.sf9, .bw500⟩
  | .sf8bw500 => .ok ⟨.sf8, .bw500⟩
  | .sf7bw500 => .ok ⟨.sf7, .bw500⟩
  | _ => .error .invalidDataRate

/-- Model of `semtech_udp::pull_resp::Time`: either the immediate flag or a
concrete concentrator timestamp (microseconds). -/
inductive TxTime where
  | immediate
  | byTmst (tmst : ℕ)
deriving DecidableEq, Repr

/-- Model of `semtech_udp::pull_resp::TxPk` restricted to the fields set by
`inner_to_pull_resp` and read by `Downlink::dispatch`. -/
structure TxPk where
  time : TxTime
  ipol : Bool
  codr : StCodingRate
  datr : StDataRate
  freq : ℚ
  data : List ℕ
  powe : ℕ
  rfch : ℕ
  prea : Option ℕ
  ncrc : Option Bool
deriving DecidableEq, Repr

/-- Source `to_mhz` of packet.rs: hertz as fractional megahertz. -/
def to_mhz (hz : ℕ) : ℚ :=
  (hz : ℚ) / 1000000

/-- A downlink receive-window descriptor of `PacketRouterPacketDownV1`
(frequency in Hz, protocol datarate, timestamp in microseconds, and for rx1
the immediate flag). -/
structure DownWindow where
  frequency : ℕ
  datarate : ProtoRate
  timestamp : ℕ
  immediate : Bool
deriving DecidableEq, Repr

/-- Model of `PacketDown` (a `PacketRouterPacketDownV1`): payload plus the
two optional receive windows. -/
structure PacketDown where
  payload : List ℕ
  rx1 : Option DownWindow
  rx2 : Option DownWindow
deriving DecidableEq, Repr

/-- Source `PacketDown::inner_to_pull_resp`. -/
def PacketDown.inner_to_pull_resp (d : PacketDown) (time : TxTime)
    (frequency_hz : ℕ) (datarate : StDataRate) (tx_power : ℕ) : TxPk :=
  { time := time
    ipol := true
    codr := .cr4_5
    datr := datarate
    freq := to_mhz frequency_hz
    data := d.payload
    powe := tx_power
    rfch := 0
    prea := none
    ncrc := none }

/-- Source `PacketDown::to_rx1_pull_resp`: fails when the rx1 window is
absent or its datarate is unsupported. -/
def PacketDown.to_rx1_pull_resp (d : PacketDown) (tx_power : ℕ) :
    Except DecodeError TxPk :=
  match d.rx1 with
  | none => .error .noRx1Window
  | some rx1 =>
    let time := if rx1.immediate then TxTime.immediate else TxTime.byTmst rx1.timestamp
    (datarate.from_proto rx1.datarate).map
      (fun dr => d.inner_to_pull_resp time rx1.frequency dr tx_power)

/-- Source `PacketDown::to_rx2_pull_resp`: `Ok(None)` when rx2 is absent,
otherwise a concrete-timestamp TxPk (or a decode error). -/
def PacketDown.to_rx2_pull_resp (d : PacketDown) (tx_power : ℕ) :
    Except DecodeError (Option TxPk) :=
  match d.rx2 with
  | none => .ok none
  | some rx2 =>
    (datarate.from_proto rx2.datarate).map
      (fun dr => some (d.inner_to_pull_resp (TxTime.byTmst rx2.timestamp) rx2.frequency dr tx_power))

/-- Modelled from the spec: `Packet::to_pull_resp(use_rx2)` is called from
gateway.rs but its definition is not under src/ (only the rx1/rx2 helpers
of packet.rs are).  Per the spec's downlink-emission section it selects the
rx1 conversion when the flag is false and the rx2 conversion when true,
propagating conversion errors. -/
def PacketDown.to_pull_resp (d : PacketDown) (use_rx2 : Bool) (tx_power : ℕ) :
    Except DecodeError (Option TxPk) :=
  if use_rx2 then d.to_rx2_pull_resp tx_power
  else (d.to_rx1_pull_resp tx_power).map some

/-! ## dbusruntime.rs: downlink dispatch -/

/-- Model of `semtech_udp::tx_ack::Error` restricted to the classes the
spec's mapping table names. -/
inductive TxAckError where
  | tooEarly
  | tooLate
  | sendFail
deriving DecidableEq, Repr

/-- Model of `semtech_udp::server_runtime::Error` restricted to the
variants the downlink path can surface. -/
inductive SemtechError where
  | ack (e : TxAckError)
  | sendTimeout
deriving DecidableEq, Repr

/-- Modelled from the spec: the concentrator card's send-result classes
(`Ok` plus the error classes of the spec's mapping table).  The card's
error type itself is not under src/; `Downlink::dispatch` only observes the
`Result` of the bus proxy call. -/
inductive CardSendError where
  | errTooEarly
  | errTooLate
  | errPacketCollision
  | errQueueFull
  | errIo
  | transportFailure
deriving DecidableEq, Repr

/-- Outcome of one `Downlink::dispatch` call: the source either panics (on
a `None` packet), returns `Ok(None)`, or returns a `semtech_udp` error. -/
inductive DispatchOutcome where
  | panicked
  | ok (tmst : Option ℕ)
  | err (e : SemtechError)
deriving DecidableEq, Repr

/-- Source `Downlink::dispatch`: with a `Some` packet it serializes and
sends it over the bus proxy, mapping `Ok(())` to `Ok(None)` and EVERY
proxy error to `Error::SendTimeout` (the TxPkt serialization does not
affect the result mapping and is omitted); with a `None` packet it panics. -/
def Downlink.dispatch (packet : Option TxPk)
    (send_result : Except CardSendError Unit) : DispatchOutcome :=
  match packet with
  | some _ =>
    match send_result with
    | .ok _ => .ok none
    | .error _ => .err .sendTimeout
  | none => .panicked

/-! ## gateway.rs: spawned downlink task -/

/-- Terminal state of the task spawned by `Gateway::handle_downlink`:
either it panicked (an `unwrap` on a failed conversion) or it ran to
completion. -/
inductive TaskOutcome where
  | panicked
  | finished
deriving DecidableEq, Repr

/-- Source `Gateway::handle_downlink`, the body of the spawned task, as a
function of the downlink packet and of the results the two dispatch calls
would return.  `to_pull_resp(...).unwrap()` panics the task when the
conversion fails; an rx1 result of `Ack(TooEarly)` or `Ack(TooLate)`
triggers the rx2 conversion (again unwrapped) and dispatch, whose error is
logged and swallowed; every other rx1 error is logged and swallowed. -/
def handle_downlink_task (d : PacketDown) (tx_power : ℕ)
    (rx1_result rx2_result : Except SemtechError (Option ℕ)) : TaskOutcome :=
  match d.to_pull_resp false tx_power with
  | .error _ => .panicked
  | .ok none => .finished
  | .ok (some _) =>
    match rx1_result with
    | .error (.ack .tooEarly) | .error (.ack .tooLate) =>
      match d.to_pull_resp true tx_power with
      | .error _ => .panicked
      | .ok none => .finished
      | .ok (some _) =>
        match rx2_result with
        | _ => .finished
    | _ => .finished

/-! ## Concrete artefacts used by the theorems -/

/-- A concrete TxPk (built through the source conversion) used to exercise
`Downlink::dispatch`. -/
def sample_txpk : TxPk :=
  PacketDown.inner_to_pull_resp ⟨[1, 2, 3], none, none⟩ .immediate 902300000 ⟨.sf7, .bw125⟩ 27

/-- A downlink whose rx1 window carries an unsupported (LR-FHSS) datarate,
so its conversion to a pull_resp TxPk fails. -/
def unsupported_rx1_downlink : PacketDown :=
  ⟨[1, 2], some ⟨868100000, .lrfhss1bw137, 1000, false⟩, none⟩

/-- A well-formed downlink with a supported rx1 datarate and no rx2. -/
def supported_rx1_downlink : PacketDown :=
  ⟨[1, 2], some ⟨868100000, .sf9bw125, 1000, false⟩, none⟩

/-! ## Theorems -/

/-- Inserting into the signed-beacon queue never grows it past 6 entries
(the source evicts only when the length already exceeds 5). -/
theorem queue_push_length_le (q : List RxPkV3) (p : RxPkV3) (h : q.length ≤ 6) :
    (queue_signed_poc_packet q p).length ≤ 6 := by
  unfold queue_signed_poc_packet
  by_cases h5 : q.length > 5
  · rw [if_pos h5]
    simp only [List.length_append, List.length_eraseIdx, List.length_singleton]
    rw [if_pos (by omega : 0 < q.length)]
    omega
  · rw [if_neg h5]
    simp only [List.length_append, List.length_singleton]
    omega

/-- C1 (counterexample): pushing six distinct beacons with keys 1..6 into
the empty queue leaves SIX entries with keys 1..6 — both the claimed bound
of 5 and the claimed final content 2..6 fail on the source, whose eviction
test is `len > 5`. -/
theorem queue_six_pushes_counterexample :
    ¬ (((([1, 2, 3, 4, 5, 6].map RxPkV3.mk).foldl queue_signed_poc_packet []).length ≤ 5 ∧
      (([1, 2, 3, 4, 5, 6].map RxPkV3.mk).foldl queue_signed_poc_packet []).map RxPkV3.key
        = [2, 3, 4, 5, 6])) := by
  decide

/-- C1 (amended): the signed-beacon queue is a bounded FIFO of at most 6
entries: after any sequence of `queue_signed_poc_packet` insertions into an
initially empty queue its length never exceeds 6 (an insertion evicts the
oldest entry only when the length already exceeds 5), and after pushing six
distinct beacons with keys 1..6 the queue contains exactly keys 1..6 in
order. -/
theorem queue_signed_poc_packet_bounded_by_six :
    (∀ pkts : List RxPkV3, (pkts.foldl queue_signed_poc_packet []).length ≤ 6) ∧
    (([1, 2, 3, 4, 5, 6].map RxPkV3.mk).foldl queue_signed_poc_packet []).map RxPkV3.key
      = [1, 2, 3, 4, 5, 6] := by
  constructor
  · have key : ∀ (l q : List RxPkV3), q.length ≤ 6 →
        (l.foldl queue_signed_poc_packet q).length ≤ 6 := by
      intro l
      induction l with
      | nil => intro q h; simpa using h
      | cons p rest ih =>
        intro q h
        exact ih _ (queue_push_length_le q p h)
    exact fun pkts => key pkts [] (by simp)
  · decide

/-- Witness for the amended queue bound: a concrete seven-push sequence
stays within six entries. -/
theorem queue_signed_poc_packet_bounded_by_six_witness :
    (([⟨1⟩, ⟨2⟩, ⟨3⟩, ⟨4⟩, ⟨5⟩, ⟨6⟩, ⟨7⟩] : List RxPkV3).foldl
      queue_signed_poc_packet []).length ≤ 6 :=
  queue_signed_poc_packet_bounded_by_six.1 [⟨1⟩, ⟨2⟩, ⟨3⟩, ⟨4⟩, ⟨5⟩, ⟨6⟩, ⟨7⟩]

/-- C2 (code evaluation): `Downlink::dispatch` with a `Some` packet maps a
successful card send to `Ok(None)` and EVERY failed send — IO errors,
timing errors, queue-full, collision, transport failures alike — to
`Err(SendTimeout)`; the spec's finer `Ack(TooLate)` / `Ack(SendFail)`
mapping is not implemented (the source carries a TODO to that effect). -/
theorem dispatch_collapses_all_errors_to_send_timeout :
    Downlink.dispatch (some sample_txpk) (.ok ()) = .ok none ∧
    Downlink.dispatch (some sample_txpk) (.error .errIo) = .err .sendTimeout ∧
    Downlink.dispatch (some sample_txpk) (.error .errTooEarly) = .err .sendTimeout ∧
    Downlink.dispatch (some sample_txpk) (.error .errTooLate) = .err .sendTimeout ∧
    Downlink.dispatch (some sample_txpk) (.error .errPacketCollision) = .err .sendTimeout ∧
    Downlink.dispatch (some sample_txpk) (.error .errQueueFull) = .err .sendTimeout ∧
    Downlink.dispatch (some sample_txpk) (.error .transportFailure) = .err .sendTimeout ∧
    DispatchOutcome.err (.ack .sendFail) ≠ DispatchOutcome.err .sendTimeout ∧
    DispatchOutcome.err (.ack .tooLate) ≠ DispatchOutcome.err .sendTimeout := by
  refine ⟨rfl, rfl, rfl, rfl, rfl, rfl, rfl, by decide, by decide⟩

/-- C8 (code evaluation): `handle_pkt_sig` removes the FIRST queued beacon
whose key matches the signature's key (leaving later duplicates and other
entries in place) and is a no-op when no key matches; the removed beacon is
returned to the caller's binding and then discarded — the queue becomes
empty on the single-match input and no signature is attached anywhere
(`PacketUp::set_secure_sig` is never invoked on this path). -/
theorem handle_pkt_sig_removes_first_match_and_discards :
    handle_pkt_sig [⟨3735928559⟩] 3735928559 = ([], some ⟨3735928559⟩) ∧
    handle_pkt_sig [⟨1⟩, ⟨2⟩, ⟨1⟩] 1 = ([⟨2⟩, ⟨1⟩], some ⟨1⟩) ∧
    handle_pkt_sig [⟨1⟩, ⟨2⟩] 3 = ([⟨1⟩, ⟨2⟩], none) := by
  decide

/-- C9 (code evaluation): when the rx1 conversion of a downlink fails (an
unsupported LR-FHSS datarate here), the task spawned by `handle_downlink`
PANICS — the source calls `.unwrap()` on the conversion result — for every
possible dispatch outcome, instead of dropping the packet with a warning;
a downlink with a supported rx1 datarate runs to completion. -/
theorem downlink_decode_failure_panics_task :
    (∀ rx1_result rx2_result,
      handle_downlink_task unsupported_rx1_downlink 27 rx1_result rx2_result = .panicked) ∧
    handle_downlink_task supported_rx1_downlink 27 (.ok none) (.ok none) = .finished := by
  exact ⟨fun _ _ => rfl, rfl⟩

/-- Witness for the panicking downlink task at a concrete dispatch-result
pair. -/
theorem downlink_decode_failure_panics_task_witness :
    handle_downlink_task unsupported_rx1_downlink 27 (.error .sendTimeout) (.ok none)
      = .panicked :=
  downlink_decode_failure_panics_task.1 (.error .sendTimeout) (.ok none)

/-- C10: the spreading-factor, bandwidth, coding-rate and datarate
translation tables between the concentrator (`loragw_hw`) and Semtech
representations are mutually inverse total bijections: converting any value
one way and back yields the original. -/
theorem translation_tables_mutually_inverse :
    (∀ x : NlSpreadingFactor, st_to_nl.convert_sf (nl_to_st.convert_sf x) = x) ∧
    (∀ x : StSpreadingFactor, nl_to_st.convert_sf (st_to_nl.convert_sf x) = x) ∧
    (∀ x : NlBandwidth, st_to_nl.convert_bandwidth (nl_to_st.convert_bandwidth x) = x) ∧
    (∀ x : StBandwidth, nl_to_st.convert_bandwidth (st_to_nl.convert_bandwidth x) = x) ∧
    (∀ x : NlCodingRate, st_to_nl.convert_coderate (nl_to_st.convert_coding_rate x) = x) ∧
    (∀ x : StCodingRate, nl_to_st.convert_coding_rate (st_to_nl.convert_coderate x) = x) ∧
    (∀ x : NlDatarate, st_to_nl.convert_datarate (nl_to_st.convert_datarate x) = x) ∧
    (∀ x : StDataRate, nl_to_st.convert_datarate (st_to_nl.convert_datarate x) = x) := by
  refine ⟨?_, ?_, ?_, ?_, ?_, ?_, ?_, ?_⟩ <;> decide

/-- Witness for the translation-table round-trip at a concrete value. -/
theorem translation_tables_mutually_inverse_witness :
    st_to_nl.convert_sf (nl_to_st.convert_sf .sf7) = .sf7 :=
  translation_tables_mutually_inverse.1 .sf7

/-- C6: `can_send` returns false whenever the candidate time on air exceeds
the 400 ms hard cap, and returns false on every input when no regulatory
model is configured, regardless of the tracked history. -/
theorem can_send_false_of_cap_or_no_model (t : LoraThrottle) (at_time : ℤ)
    (frequency time_on_air : ℚ)
    (h : MAX_TIME_ON_AIR < time_on_air ∨ t.model = none) :
    t.can_send at_time frequency time_on_air = false := by
  cases hm : t.model with
  | none => simp [LoraThrottle.can_send, hm]
  | some m =>
    rcases h with h | h
    · simp [LoraThrottle.can_send, hm, h]
    · rw [hm] at h
      exact absurd h (by simp)

/-- C7 (code evaluation): the time-on-air computation reproduces the
spec's truncated-millisecond reference values where the symbol-count
numerator is nonnegative (991 ms and 2465 ms for the two SF12 table rows),
but at a zero-length payload with SF12 the numerator `8·len − 4·SF + 44`
is −4 and the source's `u32` arithmetic wraps it to 4294967292 instead of
letting the `max` clamp the contribution to 0: the code yields 536870923
payload symbols where the claimed formula yields 8. -/
theorem time_on_air_table_and_wrapping_numerator :
    ms (time_on_air 125000 12 5 8 true 7) = 991 ∧
    ms (time_on_air 125000 12 5 8 true 51) = 2465 ∧
    payload_symbols 12 5 true 0 true = 536870923 ∧
    spec_payload_symbols 12 5 true 0 true = 8 := by
  refine ⟨?_, ?_, ?_, ?_⟩
  · have h : ⌈(52 : ℚ) / 40⌉ = 2 := by
      rw [Int.ceil_eq_iff]
      constructor <;> norm_num
    simp only [ms, time_on_air, symbol_duration, payload_symbols, wrap32]
    norm_num
    rw [show Int.toNat 52 = 52 from rfl, show ((52 : ℕ) : ℚ) = (52 : ℚ) from by norm_num, h,
      show Int.toNat 2 = 2 from rfl]
    norm_num
    decide
  · have h : ⌈(404 : ℚ) / 40⌉ = 11 := by
      rw [Int.ceil_eq_iff]
      constructor <;> norm_num
    simp only [ms, time_on_air, symbol_duration, payload_symbols, wrap32]
    norm_num
    rw [show Int.toNat 404 = 404 from rfl, show ((404 : ℕ) : ℚ) = (404 : ℚ) from by norm_num, h,
      show Int.toNat 11 = 11 from rfl]
    norm_num
    decide
  · have h : ⌈(4294967292 : ℚ) / 40⌉ = 107374183 := by
      rw [Int.ceil_eq_iff]
      constructor <;> norm_num
    simp only [payload_symbols, wrap32]
    norm_num
    rw [show Int.toNat 4294967292 = 4294967292 from rfl,
      show ((4294967292 : ℕ) : ℚ) = (4294967292 : ℚ) from by norm_num, h]
    decide
  · simp only [spec_payload_symbols]
    norm_num
    rw [show ⌈(-(1 / 10) : ℚ)⌉ = 0 from by norm_num]
    decide

/-- Witness for the cap-and-missing-model theorem at concrete inputs. -/
theorem can_send_false_of_cap_or_no_model_witness :
    LoraThrottle.can_send ⟨some (.dwell 400 20000), []⟩ 0 0 401 = false ∧
    LoraThrottle.can_send ⟨none, [⟨1, 0, 10⟩]⟩ 0 1 10 = false := by
  constructor
  · exact can_send_false_of_cap_or_no_model _ 0 0 401
      (Or.inl (by norm_num [MAX_TIME_ON_AIR]))
  · exact can_send_false_of_cap_or_no_model _ 0 1 10 (Or.inr rfl)

/-- The source dwell accumulation equals the spec's per-packet contribution
sum: the two present the same four scenarios in different order (the source
tests the cutoff before the frequency filter), but every packet receives the
same contribution either way. -/
theorem dwell_time_eq_spec_dwell (pkts : List SentPacket) (cutoff : ℚ)
    (frequency : Option ℚ) :
    dwell_time pkts cutoff frequency = spec_dwell pkts cutoff frequency := by
  induction pkts with
  | nil => rfl
  | cons p rest ih =>
    simp only [dwell_time, spec_dwell, List.map_cons, List.sum_cons,
      spec_dwell_contribution] at *
    by_cases h1 : (p.sent_at : ℚ) + p.time_on_air < cutoff <;>
      by_cases h2 : skip_frequency frequency p <;>
        by_cases h3 : (p.sent_at : ℚ) ≤ cutoff <;>
          simp [h1, h2, h3, ih]

/-- C3: under a configured Dwell model, for a candidate within the 400 ms
cap, `can_send` permits the transmission iff the spec-side accumulated
dwell on the candidate's frequency relative to `cutoff = at − period + toa`
plus the candidate's own time on air stays within the limit. -/
theorem dwell_can_send_iff (limit : ℚ) (period : ℕ) (pkts : List SentPacket)
    (at_time : ℤ) (frequency toa : ℚ) (h : toa ≤ 400) :
    LoraThrottle.can_send ⟨some (.dwell limit period), pkts⟩ at_time frequency toa = true ↔
      spec_dwell pkts ((at_time : ℚ) - (period : ℚ) + toa) (some frequency) + toa ≤ limit := by
  have hcap : ¬ (toa > MAX_TIME_ON_AIR) := not_lt.mpr (by simpa [MAX_TIME_ON_AIR] using h)
  simp only [LoraThrottle.can_send, LoraRegulatoryModel.can_send]
  rw [if_neg hcap, dwell_time_eq_spec_dwell, decide_eq_true_eq]
  have hcast : (((at_time - (period : ℤ) : ℤ)) : ℚ) = (at_time : ℚ) - (period : ℚ) := by
    push_cast
    ring
  rw [hcast]

/-- Witness for the Dwell-model characterisation: one tracked 200 ms packet
on the candidate frequency leaves exactly room for a second 200 ms packet
under the US dwell limit of 400 ms. -/
theorem dwell_can_send_iff_witness :
    LoraThrottle.can_send ⟨some (.dwell 400 20000), [⟨1, 0, 200⟩]⟩ 1 1 200 = true :=
  (dwell_can_send_iff 400 20000 [⟨1, 0, 200⟩] 1 1 200 (by norm_num)).mpr
    (by norm_num [spec_dwell, spec_dwell_contribution, skip_frequency])

/-! ## Sortedness and pruning of the tracked-packet list -/

/-- The tracked list is in non-decreasing `sent_at` order. -/
def sorted_by_sent_at (l : List SentPacket) : Prop :=
  l.Pairwise (fun a b => a.sent_at ≤ b.sent_at)

/-- No tracked entry is as old as one period before the last entry: every
entry satisfies `last.sent_at − period < sent_at`. -/
def pruned_within_period (l : List SentPacket) (period : ℕ) : Prop :=
  ∀ p ∈ l, ∀ q, l.getLast? = some q → q.sent_at - (period : ℤ) < p.sent_at

/-- An element named by `getLast?` is a member of the list. -/
theorem mem_of_getLast?_eq {α : Type} {l : List α} {a : α}
    (h : l.getLast? = some a) : a ∈ l := by
  have h2 : a ∈ l.getLast? := by
    rw [h]
    exact Option.mem_some_iff.mpr rfl
  obtain ⟨hne, rfl⟩ := List.mem_getLast?_eq_getLast h2
  exact List.getLast_mem hne

/-- In a list sorted by `sent_at`, every element is at most the last one. -/
theorem sorted_le_getLast : ∀ (l : List SentPacket), sorted_by_sent_at l →
    ∀ p ∈ l, ∀ q, l.getLast? = some q → p.sent_at ≤ q.sent_at := by
  intro l
  induction l with
  | nil =>
    intro _ p hp
    cases hp
  | cons a t ih =>
    intro hs p hp q hq
    cases t with
    | nil =>
      have hp' : p = a := by simpa using hp
      have hq' : a = q := by simpa using hq
      rw [hp', ← hq']
    | cons b t2 =>
      have hq' : (b :: t2).getLast? = some q := by
        rw [List.getLast?_cons_cons] at hq
        exact hq
      rcases List.mem_cons.mp hp with rfl | hp2
      · have hab : p.sent_at ≤ b.sent_at :=
          (List.pairwise_cons.mp hs).1 b (List.mem_cons_self b t2)
        have hbq : b.sent_at ≤ q.sent_at :=
          ih (List.pairwise_cons.mp hs).2 b (List.mem_cons_self b t2) q hq'
        exact le_trans hab hbq
      · exact ih (List.pairwise_cons.mp hs).2 p hp2 q hq'

/-- Appending a packet that is no older than the current last entry keeps
the list sorted; re-sorting always produces a sorted list. -/
theorem push_or_sort_sorted (l : List SentPacket) (hs : sorted_by_sent_at l)
    (x : SentPacket) (flag : Bool)
    (hflag : flag = false → ∀ q, l.getLast? = some q → q.sent_at ≤ x.sent_at) :
    sorted_by_sent_at (if flag then (l ++ [x]).mergeSort sentPacketLe else l ++ [x]) := by
  by_cases hb : flag = true
  · rw [if_pos hb]
    have htrans : ∀ a b c : SentPacket, sentPacketLe a b = true →
        sentPacketLe b c = true → sentPacketLe a c = true := by
      intro a b c h1 h2
      simp only [sentPacketLe, decide_eq_true_eq] at *
      exact le_trans h1 h2
    have htotal : ∀ a b : SentPacket, (sentPacketLe a b || sentPacketLe b a) = true := by
      intro a b
      simp only [sentPacketLe, Bool.or_eq_true, decide_eq_true_eq]
      exact le_total _ _
    have hms := List.sorted_mergeSort htrans htotal (l ++ [x])
    exact hms.imp (by
      intro a b hab
      simpa [sentPacketLe, decide_eq_true_eq] using hab)
  · rw [if_neg hb]
    have hlx := hflag (Bool.not_eq_true flag ▸ hb)
    unfold sorted_by_sent_at
    rw [List.pairwise_append]
    refine ⟨hs, List.pairwise_singleton _ _, ?_⟩
    intro a ha b hbmem
    obtain rfl : b = x := by simpa using hbmem
    cases hlast : l.getLast? with
    | none =>
      obtain rfl : l = [] := List.getLast?_eq_none_iff.mp hlast
      cases ha
    | some last =>
      exact le_trans (sorted_le_getLast _ hs a ha last hlast) (hlx last hlast)

/-- Filtering a sorted list by the retention cutoff of its last entry keeps
it sorted and establishes the pruning invariant. -/
theorem filter_cutoff_sorted_pruned (S : List SentPacket) (hS : sorted_by_sent_at S)
    (period : ℕ) (last : SentPacket) (hgl : S.getLast? = some last) :
    sorted_by_sent_at
      (List.filter (fun p => decide (last.sent_at - (period : ℤ) < p.sent_at)) S) ∧
    pruned_within_period
      (List.filter (fun p => decide (last.sent_at - (period : ℤ) < p.sent_at)) S)
      period := by
  constructor
  · exact hS.filter _
  · intro p hp q hq
    have hple : last.sent_at - (period : ℤ) < p.sent_at := by
      simpa using List.of_mem_filter hp
    have hqmem : q ∈ S := List.mem_of_mem_filter (mem_of_getLast?_eq hq)
    have hqle : q.sent_at ≤ last.sent_at :=
      sorted_le_getLast S hS q hqmem last hgl
    omega

/-- One `track_sent` call on a throttle with a configured model and a sorted
tracked list leaves the list sorted, pruned within the model's period, and
the model unchanged. -/
theorem track_sent_step (t : LoraThrottle) (model : LoraRegulatoryModel)
    (hm : t.model = some model) (hs : sorted_by_sent_at t.sent_packets)
    (sent_at : ℤ) (frequency time_on_air : ℚ) :
    sorted_by_sent_at (t.track_sent sent_at frequency time_on_air).sent_packets ∧
    pruned_within_period (t.track_sent sent_at frequency time_on_air).sent_packets
      model.period ∧
    (t.track_sent sent_at frequency time_on_air).model = some model := by
  have hS : sorted_by_sent_at
      (if (match t.sent_packets.getLast? with
            | some last_packet =>
              decide ((⟨frequency, sent_at, time_on_air⟩ : SentPacket).sent_at
                < last_packet.sent_at)
            | none => false)
        then (t.sent_packets ++ [(⟨frequency, sent_at, time_on_air⟩ : SentPacket)]).mergeSort
          sentPacketLe
        else t.sent_packets ++ [(⟨frequency, sent_at, time_on_air⟩ : SentPacket)]) := by
    apply push_or_sort_sorted t.sent_packets hs
    intro hfl q hq
    rw [hq] at hfl
    simpa using not_lt.mp (by simpa using hfl)
  simp only [LoraThrottle.track_sent, hm]
  split
  case h_1 last_packet heq =>
    obtain ⟨h1, h2⟩ := filter_cutoff_sorted_pruned _ hS model.period last_packet heq
    exact ⟨h1, h2, rfl⟩
  case h_2 heq =>
    obtain hnil := List.getLast?_eq_none_iff.mp heq
    rw [hnil]
    refine ⟨List.Pairwise.nil, ?_, rfl⟩
    intro p hp
    cases hp

/-- A sequence of `track_sent` calls, each a `(sent_at, frequency, time_on_air)`
triple, applied to a freshly configured throttle. -/
def run_track_sent (model : LoraRegulatoryModel) (calls : List (ℤ × ℚ × ℚ)) : LoraThrottle :=
  calls.foldl (fun t c => t.track_sent c.1 c.2.1 c.2.2) (LoraThrottle.fromModel model)

/-- C5: for every sequence of `track_sent` calls on a throttle with a
configured model, after each call the tracked list is sorted in
non-decreasing `sent_at` order and contains no entry with
`sent_at ≤ last.sent_at − period` (quantifying over all call sequences
covers every prefix, hence the state after each call). -/
theorem track_sent_sequence_sorted_and_pruned (model : LoraRegulatoryModel)
    (calls : List (ℤ × ℚ × ℚ)) :
    sorted_by_sent_at (run_track_sent model calls).sent_packets ∧
    pruned_within_period (run_track_sent model calls).sent_packets model.period := by
  have key : ∀ (cs : List (ℤ × ℚ × ℚ)) (t : LoraThrottle), t.model = some model →
      sorted_by_sent_at t.sent_packets →
      pruned_within_period t.sent_packets model.period →
      sorted_by_sent_at
        ((cs.foldl (fun t c => t.track_sent c.1 c.2.1 c.2.2) t).sent_packets) ∧
      pruned_within_period
        ((cs.foldl (fun t c => t.track_sent c.1 c.2.1 c.2.2) t).sent_packets)
        model.period := by
    intro cs
    induction cs with
    | nil =>
      intro t _ h2 h3
      exact ⟨h2, h3⟩
    | cons c rest ih =>
      intro t h1 h2 _
      obtain ⟨hsorted, hpruned, hmodel⟩ := track_sent_step t model h1 h2 c.1 c.2.1 c.2.2
      exact ih _ hmodel hsorted hpruned
  refine key calls (LoraThrottle.fromModel model) rfl List.Pairwise.nil ?_
  intro p hp
  cases hp

/-- A `track_sent` call whose packet is no older than the current last
entry and whose retention cutoff removes nothing is a plain append. -/
theorem track_sent_append_no_prune (M : LoraRegulatoryModel) (L : List SentPacket)
    (a : ℤ) (f toa : ℚ)
    (hflag : ∀ q, L.getLast? = some q → ¬ (a < q.sent_at))
    (hkeep : ∀ p ∈ L ++ [(⟨f, a, toa⟩ : SentPacket)], a - (M.period : ℤ) < p.sent_at) :
    LoraThrottle.track_sent ⟨some M, L⟩ a f toa = ⟨some M, L ++ [⟨f, a, toa⟩]⟩ := by
  simp only [LoraThrottle.track_sent]
  have hfl : (match L.getLast? with
      | some last_packet =>
        decide ((⟨f, a, toa⟩ : SentPacket).sent_at < last_packet.sent_at)
      | none => false) = false := by
    cases hl : L.getLast? with
    | none => rfl
    | some q => simpa using hflag q hl
  rw [hfl]
  simp only [Bool.false_eq_true, if_false, List.getLast?_concat]
  rw [List.filter_eq_self.mpr]
  intro p hp
  exact decide_eq_true (hkeep p hp)

/-- The state reached by tracking `n ≤ 3600` packets of 10 ms at 1-second
spacing on channel 0 under the EU duty model: every insertion appends (the
times are increasing) and nothing is pruned (all entries are within one
hour). -/
theorem eu_fold (n : ℕ) (hn : n ≤ 3600) :
    (List.range n).foldl (fun t (i : ℕ) => t.track_sent (1000 * (i : ℤ)) 0 10)
      (LoraThrottle.fromModel (.duty (1 / 100) 3600000)) =
    ⟨some (.duty (1 / 100) 3600000),
      (List.range n).map (fun (i : ℕ) => (⟨0, 1000 * (i : ℤ), 10⟩ : SentPacket))⟩ := by
  induction n with
  | zero => rfl
  | succ k ih =>
    rw [List.range_succ, List.foldl_append, ih (by omega)]
    simp only [List.foldl_cons, List.foldl_nil]
    rw [track_sent_append_no_prune]
    · rw [List.map_append]
      rfl
    · intro q hq
      rcases List.mem_map.mp (mem_of_getLast?_eq hq) with ⟨i, hi, rfl⟩
      have hik : i < k := List.mem_range.mp hi
      simp only [not_lt]
      omega
    · intro p hp
      rcases List.mem_append.mp hp with hpl | hpx
      · rcases List.mem_map.mp hpl with ⟨i, hi, rfl⟩
        simp only [LoraRegulatoryModel.period]
        omega
      · have hpe : p = (⟨0, 1000 * (k : ℤ), 10⟩ : SentPacket) := by simpa using hpx
        rw [hpe]
        simp only [LoraRegulatoryModel.period]
        omega

/-- Dwell of a history whose packets all start strictly after the cutoff
and have nonnegative times on air (no frequency filter): the plain sum of
the times on air. -/
theorem dwell_time_all_after (pkts : List SentPacket) (cutoff : ℚ)
    (h : ∀ p ∈ pkts, cutoff < (p.sent_at : ℚ) ∧ 0 ≤ p.time_on_air) :
    dwell_time pkts cutoff none = (pkts.map SentPacket.time_on_air).sum := by
  induction pkts with
  | nil => rfl
  | cons p rest ih =>
    obtain ⟨h1, h2⟩ := h p (List.mem_cons_self p rest)
    simp only [dwell_time, skip_frequency]
    rw [if_neg (by linarith), if_neg (by simp), if_neg (not_le.mpr h1)]
    rw [List.map_cons, List.sum_cons, ih (fun q hq => h q (List.mem_cons_of_mem p hq))]

/-- The throttle state of the spec's EU duty-saturation scenario: 3599
tracked packets of 10 ms at 1-second spacing on channel 0, Duty(0.01, 1h). -/
def eu_scenario_throttle : LoraThrottle :=
  (List.range 3599).foldl (fun t (i : ℕ) => t.track_sent (1000 * (i : ℤ)) 0 10)
    (LoraThrottle.fromModel (.duty (1 / 100) 3600000))

set_option maxRecDepth 4000 in
/-- C4: under a configured Duty model, for a candidate within the 400 ms
cap, `can_send` permits the transmission iff the aggregate dwell across all
frequencies since `cutoff = at − period`, plus the candidate's time on air,
divided by the period, is strictly below the limit; and in the EU
saturation scenario the 3600th 10 ms packet is denied even on another
channel, because duty is aggregated across frequencies. -/
theorem duty_can_send_iff_and_eu_saturation :
    (∀ (limit : ℚ) (period : ℕ) (pkts : List SentPacket) (at_time : ℤ)
      (frequency toa : ℚ), toa ≤ 400 →
      (LoraThrottle.can_send ⟨some (.duty limit period), pkts⟩ at_time frequency toa = true ↔
        (spec_dwell pkts ((at_time : ℚ) - (period : ℚ)) none + toa) / (period : ℚ) < limit)) ∧
    eu_scenario_throttle.can_send 3599000 1 10 = false := by
  constructor
  · intro limit period pkts at_time frequency toa h
    have hcap : ¬ (toa > MAX_TIME_ON_AIR) := not_lt.mpr (by simpa [MAX_TIME_ON_AIR] using h)
    simp only [LoraThrottle.can_send, LoraRegulatoryModel.can_send]
    rw [if_neg hcap, dwell_time_eq_spec_dwell, decide_eq_true_eq]
    have hcast : (((at_time - (period : ℤ) : ℤ)) : ℚ) = (at_time : ℚ) - (period : ℚ) := by
      push_cast
      ring
    rw [hcast]
  · have hfold := eu_fold 3599 (by norm_num)
    unfold eu_scenario_throttle
    rw [hfold]
    simp only [LoraThrottle.can_send, LoraRegulatoryModel.can_send]
    rw [if_neg (by norm_num [MAX_TIME_ON_AIR])]
    rw [dwell_time_all_after]
    · rw [List.map_map]
      have hmap : (List.range 3599).map
          (SentPacket.time_on_air ∘ fun (i : ℕ) => (⟨0, 1000 * (i : ℤ), 10⟩ : SentPacket)) =
          List.replicate 3599 (10 : ℚ) := by
        rw [show (SentPacket.time_on_air ∘ fun (i : ℕ) => (⟨0, 1000 * (i : ℤ), 10⟩ : SentPacket)) =
            Function.const ℕ (10 : ℚ) from rfl]
        rw [List.map_const, List.length_range]
      rw [hmap, List.sum_replicate]
      apply decide_eq_false
      norm_num
    · intro p hp
      rcases List.mem_map.mp hp with ⟨i, _, rfl⟩
      constructor
      · show ((3599000 - ((3600000 : ℕ) : ℤ) : ℤ) : ℚ) < ((1000 * (i : ℤ) : ℤ) : ℚ)
        push_cast
        have hi : (0 : ℚ) ≤ (i : ℚ) := Nat.cast_nonneg i
        linarith
      · norm_num

/-- Witness for the Duty-model characterisation at a concrete input: a
fresh EU throttle permits a first 10 ms transmission. -/
theorem duty_can_send_iff_witness :
    LoraThrottle.can_send ⟨some (.duty (1 / 100) 3600000), []⟩ 0 0 10 = true :=
  (duty_can_send_iff_and_eu_saturation.1 (1 / 100) 3600000 [] 0 0 10 (by norm_num)).mpr
    (by norm_num [spec_dwell])

/-- Witness for the sortedness-and-pruning invariant on a concrete call
sequence that triggers both the re-sort and the pruning branch. -/
theorem track_sent_sequence_sorted_and_pruned_witness :
    sorted_by_sent_at
      (run_track_sent (.dwell 400 20000) [(5, 1, 10), (3, 1, 10), (100000, 2, 20)]).sent_packets ∧
    pruned_within_period
      (run_track_sent (.dwell 400 20000) [(5, 1, 10), (3, 1, 10), (100000, 2, 20)]).sent_packets
      20000 :=
  track_sent_sequence_sorted_and_pruned (.dwell 400 20000) [(5, 1, 10), (3, 1, 10), (100000, 2, 20)]

end Gateway
